import Mathlib

/-!
Verification development for the amazon-ai-settlements repository.

Shallow embedding of the three core subsystems:
  * ScoringEngine        — src/score_candidate_sites.py (compute_score_vec)
  * ClusteringEngine     — src/generate_hypotheses.py (quantile filter, DBSCAN
                           labelling, noise removal, groupby)
  * EvaluationOrchestrrr — src/generate_character_dialogue.py (retry wrapper,
                           per-character evaluation, per-site record assembly,
                           batch loop with failure ledger)

Machine floats are modelled as an extended-rational type `EFloat` with explicit
NaN and signed infinities, following IEEE-754 semantics for the operations the
code actually performs (float overflow of huge finite values to infinity is not
modelled; signed zero is collapsed to a single zero).  External libraries
(numpy broadcasting, sklearn DBSCAN internals, pandas quantile, geometry) are
either translated pointwise where the source uses them elementwise, or taken as
parameters where the source treats them as a black box.
-/

set_option maxHeartbeats 1000000

namespace AmazonSettlements

/-- Extended float: NaN, signed infinity (`inf true` = +∞), or a finite
rational. Models the numpy float64 values flowing through the scoring code. -/
inductive EFloat where
  | nan : EFloat
  | inf : Bool → EFloat
  | fin : ℚ → EFloat
deriving DecidableEq, Repr

/-- Model of `np.isnan` on a single value. Note it is false on infinities — this is
the only validity mask the scoring code uses. -/
def EFloat.isnan : EFloat → Bool
  | .nan => true
  | _ => false

/-- Model of `x - c`, array element minus finite scalar. -/
def EFloat.subQ : EFloat → ℚ → EFloat
  | .nan, _ => .nan
  | .inf b, _ => .inf b
  | .fin a, c => .fin (a - c)

/-- Model of `c - x`, finite scalar minus array element. -/
def EFloat.qSub : ℚ → EFloat → EFloat
  | _, .nan => .nan
  | _, .inf b => .inf (!b)
  | c, .fin a => .fin (c - a)

/-- Model of `np.abs` on a single value. -/
def EFloat.eabs : EFloat → EFloat
  | .nan => .nan
  | .inf _ => .inf true
  | .fin a => .fin |a|

/-- Model of `x / c`, array element divided by a finite scalar, IEEE semantics:
division by zero yields a signed infinity (or NaN for 0/0). -/
def EFloat.divQ : EFloat → ℚ → EFloat
  | .nan, _ => .nan
  | .inf b, c => if c < 0 then .inf (!b) else .inf b
  | .fin a, c =>
    if c = 0 then (if a = 0 then .nan else if 0 < a then .inf true else .inf false)
    else .fin (a / c)

/-- Model of `x * c`, array element times a finite scalar, IEEE semantics
(`∞ * 0 = NaN`). -/
def EFloat.mulQ : EFloat → ℚ → EFloat
  | .nan, _ => .nan
  | .inf b, c => if c = 0 then .nan else if 0 < c then .inf b else .inf (!b)
  | .fin a, c => .fin (a * c)

/-- Model of `x + y` on array elements, IEEE semantics (`∞ + (−∞) = NaN`). -/
def EFloat.add : EFloat → EFloat → EFloat
  | .nan, _ => .nan
  | .inf _, .nan => .nan
  | .fin _, .nan => .nan
  | .inf b, .inf c => if b = c then .inf b else .nan
  | .inf b, .fin _ => .inf b
  | .fin _, .inf c => .inf c
  | .fin a, .fin b => .fin (a + b)

/-- Model of `np.clip(x, 0, 1)`: NaN propagates, infinities clamp to the bounds. -/
def EFloat.clip01 : EFloat → EFloat
  | .nan => .nan
  | .inf b => if b then .fin 1 else .fin 0
  | .fin a => .fin (min 1 (max 0 a))

/-- The weight/ideal/range configuration read from configs/weights.yml, one
field per key the code accesses (cfg["ndvi"]["ideal"], …). YAML numbers are
modelled as rationals. -/
structure ScoringCfg where
  ndvi_ideal : ℚ
  ndvi_range : ℚ
  ndvi_weight : ℚ
  slope_max_deg : ℚ
  slope_weight : ℚ
  elevation_ideal : ℚ
  elevation_range : ℚ
  elevation_weight : ℚ
  carbon_norm_div : ℚ
  carbon_weight : ℚ
  landcover_pref_classes : List ℚ
  landcover_weight : ℚ

/-- One row of the candidate GeoDataFrame after the `pd.to_numeric` patch:
the five feature columns, each a float (possibly NaN or infinite). -/
structure SiteRow where
  ndvi : EFloat
  slope : EFloat
  elevation : EFloat
  carbon : EFloat
  landcover : EFloat
deriving DecidableEq, Repr

/-- The line `ndvi_score = 1 - np.abs(ndvi - cfg.ideal) / cfg.range` — not clipped. -/
def ndvi_score (cfg : ScoringCfg) (v : EFloat) : EFloat :=
  EFloat.qSub 1 (EFloat.divQ (EFloat.eabs (EFloat.subQ v cfg.ndvi_ideal)) cfg.ndvi_range)

/-- The line `slope_score = np.clip(1 - slope / cfg.max_deg, 0, 1)`. -/
def slope_score (cfg : ScoringCfg) (v : EFloat) : EFloat :=
  EFloat.clip01 (EFloat.qSub 1 (EFloat.divQ v cfg.slope_max_deg))

/-- The line `elev_score = 1 - np.abs(elev - cfg.ideal) / cfg.range` — not clipped. -/
def elevation_score (cfg : ScoringCfg) (v : EFloat) : EFloat :=
  EFloat.qSub 1 (EFloat.divQ (EFloat.eabs (EFloat.subQ v cfg.elevation_ideal)) cfg.elevation_range)

/-- The line `carbon_score = np.clip(carbon / cfg.norm_div, 0, 1)`. -/
def carbon_score (cfg : ScoringCfg) (v : EFloat) : EFloat :=
  EFloat.clip01 (EFloat.divQ v cfg.carbon_norm_div)

/-- The line `lc_score = np.isin(lc, cfg.pref_classes).astype(float)`; NaN and
infinities are never members of a finite list of rationals. -/
def landcover_score (cfg : ScoringCfg) (v : EFloat) : EFloat :=
  match v with
  | .fin a => if a ∈ cfg.landcover_pref_classes then .fin 1 else .fin 0
  | _ => .fin 0

/-- One masked accumulation step of compute_score_vec for the ndvi block:
`valid = ~np.isnan(ndvi); score[valid] += ndvi_score[valid] * w;
weights[valid] += w`, restricted to a single row. -/
def stepNdvi (cfg : ScoringCfg) (s : SiteRow) (acc : EFloat × ℚ) : EFloat × ℚ :=
  if s.ndvi.isnan then acc
  else (acc.1.add ((ndvi_score cfg s.ndvi).mulQ cfg.ndvi_weight), acc.2 + cfg.ndvi_weight)

/-- Slope accumulation block of compute_score_vec, single row. -/
def stepSlope (cfg : ScoringCfg) (s : SiteRow) (acc : EFloat × ℚ) : EFloat × ℚ :=
  if s.slope.isnan then acc
  else (acc.1.add ((slope_score cfg s.slope).mulQ cfg.slope_weight), acc.2 + cfg.slope_weight)

/-- Elevation accumulation block of compute_score_vec, single row. -/
def stepElevation (cfg : ScoringCfg) (s : SiteRow) (acc : EFloat × ℚ) : EFloat × ℚ :=
  if s.elevation.isnan then acc
  else (acc.1.add ((elevation_score cfg s.elevation).mulQ cfg.elevation_weight), acc.2 + cfg.elevation_weight)

/-- Carbon accumulation block of compute_score_vec, single row. -/
def stepCarbon (cfg : ScoringCfg) (s : SiteRow) (acc : EFloat × ℚ) : EFloat × ℚ :=
  if s.carbon.isnan then acc
  else (acc.1.add ((carbon_score cfg s.carbon).mulQ cfg.carbon_weight), acc.2 + cfg.carbon_weight)

/-- Landcover accumulation block of compute_score_vec, single row. -/
def stepLandcover (cfg : ScoringCfg) (s : SiteRow) (acc : EFloat × ℚ) : EFloat × ℚ :=
  if s.landcover.isnan then acc
  else (acc.1.add ((landcover_score cfg s.landcover).mulQ cfg.landcover_weight), acc.2 + cfg.landcover_weight)

/-- The per-row (score, weights) accumulators after the five feature blocks of
compute_score_vec, starting from `score = np.zeros`, `weights = np.zeros`. -/
def siteAccum (cfg : ScoringCfg) (s : SiteRow) : EFloat × ℚ :=
  stepLandcover cfg s (stepCarbon cfg s (stepElevation cfg s (stepSlope cfg s (stepNdvi cfg s (.fin 0, 0)))))

/-- Final score of one row:
`np.divide(score, weights, out=np.zeros_like(score), where=weights > 0)`. -/
def compute_score_site (cfg : ScoringCfg) (s : SiteRow) : EFloat :=
  let p := siteAccum cfg s
  if 0 < p.2 then p.1.divQ p.2 else .fin 0

/-- The function `compute_score_vec(df, cfg)`: the vectorised computation applied row-wise
(numpy array ops act elementwise, so the vectorised form is the row map). -/
def compute_score_vec (df : List SiteRow) (cfg : ScoringCfg) : List EFloat :=
  df.map (compute_score_site cfg)

/-- A raw dataframe cell before the numeric patch in main(): already numeric,
or a text value. -/
inductive RawVal where
  | num : EFloat → RawVal
  | txt : String → RawVal

/-- Model of `pd.to_numeric(col, errors="coerce")` on one cell, parameterised by the
pandas string parser: unparsable text coerces to NaN. -/
def to_numeric_coerce (parse : String → Option EFloat) : RawVal → EFloat
  | .num x => x
  | .txt s =>
    match parse s with
    | some x => x
    | none => .nan

/-- A score value lying in the unit interval (in particular finite). -/
def inUnit01 : EFloat → Prop
  | .fin q => 0 ≤ q ∧ q ≤ 1
  | _ => False

/-- All five configured weights are non-negative. -/
def nonnegWeights (cfg : ScoringCfg) : Prop :=
  0 ≤ cfg.ndvi_weight ∧ 0 ≤ cfg.slope_weight ∧ 0 ≤ cfg.elevation_weight ∧
  0 ≤ cfg.carbon_weight ∧ 0 ≤ cfg.landcover_weight

/-- The two unclipped range-normalised features (ndvi, elevation) are either
absent or finite and within `ideal ± range` — exactly the situations where
their unclipped sub-scores happen to stay in [0,1]. -/
def tameRow (cfg : ScoringCfg) (s : SiteRow) : Prop :=
  (s.ndvi = .nan ∨ ∃ v : ℚ, s.ndvi = .fin v ∧ |v - cfg.ndvi_ideal| ≤ cfg.ndvi_range) ∧
  (s.elevation = .nan ∨ ∃ v : ℚ, s.elevation = .fin v ∧ |v - cfg.elevation_ideal| ≤ cfg.elevation_range)

/-- Accumulator invariant: the running weighted sum is finite, non-negative
and bounded by the running weight sum. -/
def AccInv (acc : EFloat × ℚ) : Prop :=
  ∃ q : ℚ, acc.1 = .fin q ∧ 0 ≤ q ∧ q ≤ acc.2

/-- A value that is NaN or finite (not an infinity). -/
def finOrNan (x : EFloat) : Prop := x = .nan ∨ ∃ q : ℚ, x = .fin q

lemma isnan_eq_false (x : EFloat) (h : x ≠ .nan) : x.isnan = false := by
  cases x <;> simp_all [EFloat.isnan]

lemma clip01_mem (x : EFloat) (hx : x ≠ .nan) :
    ∃ u : ℚ, x.clip01 = .fin u ∧ 0 ≤ u ∧ u ≤ 1 := by
  cases x with
  | nan => exact absurd rfl hx
  | inf b =>
    cases b with
    | false => exact ⟨0, rfl, le_refl 0, zero_le_one⟩
    | true => exact ⟨1, rfl, zero_le_one, le_refl 1⟩
  | fin a =>
    refine ⟨min 1 (max 0 a), rfl, le_min zero_le_one (le_max_left 0 a), min_le_left 1 _⟩

lemma range_score_mem (ideal range v : ℚ) (hr : 0 < range) (hv : |v - ideal| ≤ range) :
    ∃ u : ℚ, EFloat.qSub 1 (EFloat.divQ (EFloat.eabs (EFloat.subQ (.fin v) ideal)) range) = .fin u ∧
      0 ≤ u ∧ u ≤ 1 := by
  refine ⟨1 - |v - ideal| / range, ?_, ?_, ?_⟩
  · simp [EFloat.subQ, EFloat.eabs, EFloat.divQ, EFloat.qSub, hr.ne']
  · have h1 : |v - ideal| / range ≤ 1 := (div_le_one hr).mpr hv
    linarith
  · have h0 : 0 ≤ |v - ideal| / range := div_nonneg (abs_nonneg _) hr.le
    linarith

lemma slope_score_mem (cfg : ScoringCfg) (v : EFloat) (hm : 0 < cfg.slope_max_deg)
    (hv : v ≠ .nan) : ∃ u : ℚ, slope_score cfg v = .fin u ∧ 0 ≤ u ∧ u ≤ 1 := by
  apply clip01_mem
  cases v with
  | nan => exact absurd rfl hv
  | inf b => simp [EFloat.divQ, EFloat.qSub, not_lt.mpr hm.le]
  | fin a => simp [EFloat.divQ, EFloat.qSub, hm.ne']

lemma carbon_score_mem (cfg : ScoringCfg) (v : EFloat) (hd : 0 < cfg.carbon_norm_div)
    (hv : v ≠ .nan) : ∃ u : ℚ, carbon_score cfg v = .fin u ∧ 0 ≤ u ∧ u ≤ 1 := by
  apply clip01_mem
  cases v with
  | nan => exact absurd rfl hv
  | inf b => simp [EFloat.divQ, not_lt.mpr hd.le]
  | fin a => simp [EFloat.divQ, hd.ne']

lemma landcover_score_mem (cfg : ScoringCfg) (v : EFloat) :
    ∃ u : ℚ, landcover_score cfg v = .fin u ∧ 0 ≤ u ∧ u ≤ 1 := by
  cases v with
  | nan => exact ⟨0, rfl, le_refl 0, zero_le_one⟩
  | inf b => exact ⟨0, rfl, le_refl 0, zero_le_one⟩
  | fin a =>
    by_cases h : a ∈ cfg.landcover_pref_classes
    · exact ⟨1, by simp [landcover_score, h], zero_le_one, le_refl 1⟩
    · exact ⟨0, by simp [landcover_score, h], le_refl 0, zero_le_one⟩

lemma acc_inv_step (acc : EFloat × ℚ) (hI : AccInv acc) (u w : ℚ)
    (hu0 : 0 ≤ u) (hu1 : u ≤ 1) (hw : 0 ≤ w) :
    AccInv (acc.1.add ((EFloat.fin u).mulQ w), acc.2 + w) := by
  obtain ⟨q, hq, h0, h2⟩ := hI
  refine ⟨q + u * w, by rw [hq]; rfl, by nlinarith, ?_⟩
  have : u * w ≤ w := by nlinarith
  simpa using add_le_add h2 this

lemma stepNdvi_inv (cfg : ScoringCfg) (s : SiteRow) (acc : EFloat × ℚ) (hI : AccInv acc)
    (hw : 0 ≤ cfg.ndvi_weight) (hr : 0 < cfg.ndvi_range)
    (ht : s.ndvi = .nan ∨ ∃ v : ℚ, s.ndvi = .fin v ∧ |v - cfg.ndvi_ideal| ≤ cfg.ndvi_range) :
    AccInv (stepNdvi cfg s acc) := by
  rcases ht with h | ⟨v, hv, hvr⟩
  · simpa [stepNdvi, h, EFloat.isnan] using hI
  · obtain ⟨u, hu, hu0, hu1⟩ := range_score_mem cfg.ndvi_ideal cfg.ndvi_range v hr hvr
    have hs : ndvi_score cfg (.fin v) = .fin u := hu
    simpa [stepNdvi, hv, EFloat.isnan, hs] using acc_inv_step acc hI u cfg.ndvi_weight hu0 hu1 hw

lemma stepElevation_inv (cfg : ScoringCfg) (s : SiteRow) (acc : EFloat × ℚ) (hI : AccInv acc)
    (hw : 0 ≤ cfg.elevation_weight) (hr : 0 < cfg.elevation_range)
    (ht : s.elevation = .nan ∨
      ∃ v : ℚ, s.elevation = .fin v ∧ |v - cfg.elevation_ideal| ≤ cfg.elevation_range) :
    AccInv (stepElevation cfg s acc) := by
  rcases ht with h | ⟨v, hv, hvr⟩
  · simpa [stepElevation, h, EFloat.isnan] using hI
  · obtain ⟨u, hu, hu0, hu1⟩ := range_score_mem cfg.elevation_ideal cfg.elevation_range v hr hvr
    have hs : elevation_score cfg (.fin v) = .fin u := hu
    simpa [stepElevation, hv, EFloat.isnan, hs] using
      acc_inv_step acc hI u cfg.elevation_weight hu0 hu1 hw

lemma stepSlope_inv (cfg : ScoringCfg) (s : SiteRow) (acc : EFloat × ℚ) (hI : AccInv acc)
    (hw : 0 ≤ cfg.slope_weight) (hm : 0 < cfg.slope_max_deg) :
    AccInv (stepSlope cfg s acc) := by
  by_cases h : s.slope = .nan
  · simpa [stepSlope, h, EFloat.isnan] using hI
  · obtain ⟨u, hu, hu0, hu1⟩ := slope_score_mem cfg s.slope hm h
    simpa [stepSlope, isnan_eq_false _ h, hu] using
      acc_inv_step acc hI u cfg.slope_weight hu0 hu1 hw

lemma stepCarbon_inv (cfg : ScoringCfg) (s : SiteRow) (acc : EFloat × ℚ) (hI : AccInv acc)
    (hw : 0 ≤ cfg.carbon_weight) (hd : 0 < cfg.carbon_norm_div) :
    AccInv (stepCarbon cfg s acc) := by
  by_cases h : s.carbon = .nan
  · simpa [stepCarbon, h, EFloat.isnan] using hI
  · obtain ⟨u, hu, hu0, hu1⟩ := carbon_score_mem cfg s.carbon hd h
    simpa [stepCarbon, isnan_eq_false _ h, hu] using
      acc_inv_step acc hI u cfg.carbon_weight hu0 hu1 hw

lemma stepLandcover_inv (cfg : ScoringCfg) (s : SiteRow) (acc : EFloat × ℚ) (hI : AccInv acc)
    (hw : 0 ≤ cfg.landcover_weight) : AccInv (stepLandcover cfg s acc) := by
  by_cases h : s.landcover.isnan
  · simpa [stepLandcover, h] using hI
  · obtain ⟨u, hu, hu0, hu1⟩ := landcover_score_mem cfg s.landcover
    simpa [stepLandcover, h, hu] using acc_inv_step acc hI u cfg.landcover_weight hu0 hu1 hw

lemma siteAccum_inv (cfg : ScoringCfg) (s : SiteRow) (hW : nonnegWeights cfg)
    (hnr : 0 < cfg.ndvi_range) (her : 0 < cfg.elevation_range)
    (hsm : 0 < cfg.slope_max_deg) (hcd : 0 < cfg.carbon_norm_div)
    (ht : tameRow cfg s) : AccInv (siteAccum cfg s) := by
  obtain ⟨hw1, hw2, hw3, hw4, hw5⟩ := hW
  obtain ⟨ht1, ht2⟩ := ht
  have h0 : AccInv ((.fin 0 : EFloat), (0 : ℚ)) := ⟨0, rfl, le_refl 0, le_refl 0⟩
  exact stepLandcover_inv cfg s _
    (stepCarbon_inv cfg s _
      (stepElevation_inv cfg s _
        (stepSlope_inv cfg s _
          (stepNdvi_inv cfg s _ h0 hw1 hnr ht1) hw2 hsm) hw3 her ht2) hw4 hcd) hw5

lemma compute_score_site_mem (cfg : ScoringCfg) (s : SiteRow) (hW : nonnegWeights cfg)
    (hnr : 0 < cfg.ndvi_range) (her : 0 < cfg.elevation_range)
    (hsm : 0 < cfg.slope_max_deg) (hcd : 0 < cfg.carbon_norm_div)
    (ht : tameRow cfg s) : inUnit01 (compute_score_site cfg s) := by
  obtain ⟨q, hq, h0, h2⟩ := siteAccum_inv cfg s hW hnr her hsm hcd ht
  unfold compute_score_site
  by_cases hpos : 0 < (siteAccum cfg s).2
  · have : (siteAccum cfg s).1.divQ (siteAccum cfg s).2 = .fin (q / (siteAccum cfg s).2) := by
      simp [hq, EFloat.divQ, hpos.ne']
    simp only [hpos, if_true, this]
    exact ⟨div_nonneg h0 hpos.le, (div_le_one hpos).mpr h2⟩
  · simp only [hpos, if_false]
    exact ⟨le_refl 0, zero_le_one⟩

lemma ndvi_score_fin (cfg : ScoringCfg) (v : ℚ) (hr : cfg.ndvi_range ≠ 0) :
    ∃ u : ℚ, ndvi_score cfg (.fin v) = .fin u :=
  ⟨1 - |v - cfg.ndvi_ideal| / cfg.ndvi_range,
    by simp [ndvi_score, EFloat.subQ, EFloat.eabs, EFloat.divQ, EFloat.qSub, hr]⟩

lemma elevation_score_fin (cfg : ScoringCfg) (v : ℚ) (hr : cfg.elevation_range ≠ 0) :
    ∃ u : ℚ, elevation_score cfg (.fin v) = .fin u :=
  ⟨1 - |v - cfg.elevation_ideal| / cfg.elevation_range,
    by simp [elevation_score, EFloat.subQ, EFloat.eabs, EFloat.divQ, EFloat.qSub, hr]⟩

lemma slope_score_fin (cfg : ScoringCfg) (v : ℚ) (hm : cfg.slope_max_deg ≠ 0) :
    ∃ u : ℚ, slope_score cfg (.fin v) = .fin u :=
  ⟨min 1 (max 0 (1 - v / cfg.slope_max_deg)),
    by simp [slope_score, EFloat.divQ, EFloat.qSub, EFloat.clip01, hm]⟩

lemma carbon_score_fin (cfg : ScoringCfg) (v : ℚ) (hd : cfg.carbon_norm_div ≠ 0) :
    ∃ u : ℚ, carbon_score cfg (.fin v) = .fin u :=
  ⟨min 1 (max 0 (v / cfg.carbon_norm_div)),
    by simp [carbon_score, EFloat.divQ, EFloat.clip01, hd]⟩

lemma landcover_score_fin (cfg : ScoringCfg) (v : EFloat) :
    ∃ u : ℚ, landcover_score cfg v = .fin u := by
  obtain ⟨u, hu, _, _⟩ := landcover_score_mem cfg v
  exact ⟨u, hu⟩

lemma siteAccum_fst_fin (cfg : ScoringCfg) (s : SiteRow)
    (h1 : cfg.ndvi_range ≠ 0) (h2 : cfg.elevation_range ≠ 0) (h3 : cfg.slope_max_deg ≠ 0)
    (h4 : cfg.carbon_norm_div ≠ 0) (f1 : finOrNan s.ndvi) (f2 : finOrNan s.slope)
    (f3 : finOrNan s.elevation) (f4 : finOrNan s.carbon) (_f5 : finOrNan s.landcover) :
    ∃ q : ℚ, (siteAccum cfg s).1 = .fin q := by
  have step : ∀ (x : EFloat) (w : ℚ) (q : ℚ) (u : ℚ), x = .fin q →
      (x.add ((EFloat.fin u).mulQ w)) = .fin (q + u * w) := by
    intro x w q u hx
    rw [hx]; rfl
  unfold siteAccum
  have hndvi : ∃ q : ℚ, (stepNdvi cfg s (.fin 0, 0)).1 = .fin q := by
    rcases f1 with h | ⟨v, hv⟩
    · exact ⟨0, by simp [stepNdvi, h, EFloat.isnan]⟩
    · obtain ⟨u, hu⟩ := ndvi_score_fin cfg v h1
      exact ⟨0 + u * cfg.ndvi_weight,
        by simp [stepNdvi, hv, EFloat.isnan, hu, EFloat.mulQ, EFloat.add]⟩
  obtain ⟨q1, hq1⟩ := hndvi
  have hslope : ∃ q : ℚ, (stepSlope cfg s (stepNdvi cfg s (.fin 0, 0))).1 = .fin q := by
    rcases f2 with h | ⟨v, hv⟩
    · exact ⟨q1, by simp [stepSlope, h, EFloat.isnan, hq1]⟩
    · obtain ⟨u, hu⟩ := slope_score_fin cfg v h3
      exact ⟨q1 + u * cfg.slope_weight,
        by simp [stepSlope, hv, EFloat.isnan, hu, hq1, EFloat.mulQ, EFloat.add]⟩
  obtain ⟨q2, hq2⟩ := hslope
  have helev : ∃ q : ℚ,
      (stepElevation cfg s (stepSlope cfg s (stepNdvi cfg s (.fin 0, 0)))).1 = .fin q := by
    rcases f3 with h | ⟨v, hv⟩
    · exact ⟨q2, by simp [stepElevation, h, EFloat.isnan, hq2]⟩
    · obtain ⟨u, hu⟩ := elevation_score_fin cfg v h2
      exact ⟨q2 + u * cfg.elevation_weight,
        by simp [stepElevation, hv, EFloat.isnan, hu, hq2, EFloat.mulQ, EFloat.add]⟩
  obtain ⟨q3, hq3⟩ := helev
  have hcarb : ∃ q : ℚ,
      (stepCarbon cfg s (stepElevation cfg s (stepSlope cfg s (stepNdvi cfg s (.fin 0, 0))))).1
        = .fin q := by
    rcases f4 with h | ⟨v, hv⟩
    · exact ⟨q3, by simp [stepCarbon, h, EFloat.isnan, hq3]⟩
    · obtain ⟨u, hu⟩ := carbon_score_fin cfg v h4
      exact ⟨q3 + u * cfg.carbon_weight,
        by simp [stepCarbon, hv, EFloat.isnan, hu, hq3, EFloat.mulQ, EFloat.add]⟩
  obtain ⟨q4, hq4⟩ := hcarb
  obtain ⟨u, hu⟩ := landcover_score_fin cfg s.landcover
  by_cases h : s.landcover.isnan
  · exact ⟨q4, by simp [stepLandcover, h, hq4]⟩
  · exact ⟨q4 + u * cfg.landcover_weight,
      by simp [stepLandcover, h, hu, hq4, EFloat.mulQ, EFloat.add]⟩

/-- Fixture: the default-shaped weights configuration, all weights 1,
ndvi ideal 1/2 range 1, slope max 30, elevation ideal 100 range 100,
carbon divisor 50, preferred landcover class 10. -/
def cfg_cex : ScoringCfg := ⟨1/2, 1, 1, 30, 1, 100, 100, 1, 50, 1, [10], 1⟩

/-- Fixture: like `cfg_cex` but with ndvi range 0 (a non-positive divisor). -/
def cfg_zero_range : ScoringCfg := ⟨1/2, 0, 1, 30, 1, 100, 100, 1, 50, 1, [10], 1⟩

/-- Fixture: a site whose only present feature is ndvi = 2. -/
def row_ndvi_two : SiteRow := ⟨.fin 2, .nan, .nan, .nan, .nan⟩

/-- Fixture: a site whose only present feature is ndvi = +∞. -/
def row_ndvi_inf : SiteRow := ⟨.inf true, .nan, .nan, .nan, .nan⟩

/-- Fixture: a site whose only present feature is ndvi = 1/2. -/
def row_ndvi_half : SiteRow := ⟨.fin (1/2), .nan, .nan, .nan, .nan⟩

/-- Fixture: a site whose only present feature is ndvi = 1. -/
def row_ndvi_one : SiteRow := ⟨.fin 1, .nan, .nan, .nan, .nan⟩

/-- Fixture: a site with every feature absent. -/
def row_all_nan : SiteRow := ⟨.nan, .nan, .nan, .nan, .nan⟩

/-- C1 (counterexample): with all weights non-negative, a site whose only
present feature is ndvi = 2 under ideal 1/2, range 1 scores −1/2, outside
[0,1]: the ndvi sub-score `1 − |v − ideal|/range` is NOT clipped before
weighting, contradicting the claim. -/
theorem score_outside_unit_interval_cex :
    nonnegWeights cfg_cex ∧
    compute_score_vec [row_ndvi_two] cfg_cex = [.fin (-(1/2))] ∧
    ¬ inUnit01 (.fin (-(1/2))) := by
  refine ⟨by norm_num [nonnegWeights, cfg_cex], ?_, by norm_num [inUnit01]⟩
  norm_num [compute_score_vec, compute_score_site, siteAccum, stepNdvi, stepSlope,
    stepElevation, stepCarbon, stepLandcover, ndvi_score, cfg_cex, row_ndvi_two,
    EFloat.subQ, EFloat.eabs, EFloat.divQ, EFloat.qSub, EFloat.mulQ, EFloat.add,
    EFloat.isnan, abs_of_nonneg]

/-- C1 (amended): with non-negative weights, positive divisors, and every
site's ndvi/elevation either absent or finite within `ideal ± range` (the
regime in which the two unclipped sub-scores stay in [0,1]), every score
returned by compute_score_vec lies in [0,1]. The slope/carbon sub-scores are
clipped and the landcover sub-score is an indicator, so they need no
condition beyond present-value masking. -/
theorem score_in_unit_interval_of_tame (df : List SiteRow) (cfg : ScoringCfg)
    (hW : nonnegWeights cfg) (hnr : 0 < cfg.ndvi_range) (her : 0 < cfg.elevation_range)
    (hsm : 0 < cfg.slope_max_deg) (hcd : 0 < cfg.carbon_norm_div)
    (ht : ∀ s ∈ df, tameRow cfg s) :
    ∀ x ∈ compute_score_vec df cfg, inUnit01 x := by
  intro x hx
  simp only [compute_score_vec, List.mem_map] at hx
  obtain ⟨s, hs, rfl⟩ := hx
  exact compute_score_site_mem cfg s hW hnr her hsm hcd (ht s hs)

/-- Witness for the amended C1 theorem at a concrete batch and site. -/
theorem score_in_unit_interval_of_tame_witness :
    inUnit01 (compute_score_site cfg_cex row_ndvi_half) :=
  score_in_unit_interval_of_tame [row_ndvi_half, row_all_nan] cfg_cex
    (by norm_num [nonnegWeights, cfg_cex]) (by norm_num [cfg_cex]) (by norm_num [cfg_cex])
    (by norm_num [cfg_cex]) (by norm_num [cfg_cex])
    (by
      intro s hs
      simp only [List.mem_cons, List.not_mem_nil, or_false] at hs
      rcases hs with rfl | rfl
      · exact ⟨Or.inr ⟨1/2, rfl, by norm_num [cfg_cex, row_ndvi_half]⟩, Or.inl rfl⟩
      · exact ⟨Or.inl rfl, Or.inl rfl⟩)
    (compute_score_site cfg_cex row_ndvi_half) (by simp [compute_score_vec])

/-- C9: the final score is `score / weight_sum` only when `weight_sum > 0`
and exactly 0 otherwise; in particular a site with zero accumulated weight
(e.g. every feature absent) scores exactly `fin 0`, never NaN. -/
theorem zero_weight_sum_scores_zero :
    (∀ (cfg : ScoringCfg) (s : SiteRow), (siteAccum cfg s).2 = 0 →
      compute_score_site cfg s = .fin 0) ∧
    (∀ (cfg : ScoringCfg) (s : SiteRow), s.ndvi = .nan → s.slope = .nan →
      s.elevation = .nan → s.carbon = .nan → s.landcover = .nan →
      (siteAccum cfg s).2 = 0 ∧ compute_score_site cfg s = .fin 0) := by
  have h1 : ∀ (cfg : ScoringCfg) (s : SiteRow), (siteAccum cfg s).2 = 0 →
      compute_score_site cfg s = .fin 0 := by
    intro cfg s h
    simp [compute_score_site, h]
  refine ⟨h1, ?_⟩
  intro cfg s ha hb hc hd he
  have hacc : (siteAccum cfg s).2 = 0 := by
    simp [siteAccum, stepNdvi, stepSlope, stepElevation, stepCarbon, stepLandcover,
      ha, hb, hc, hd, he, EFloat.isnan]
  exact ⟨hacc, h1 cfg s hacc⟩

/-- Witness for C9 at the all-absent site. -/
theorem zero_weight_sum_scores_zero_witness :
    (siteAccum cfg_cex row_all_nan).2 = 0 ∧
    compute_score_site cfg_cex row_all_nan = .fin 0 :=
  zero_weight_sum_scores_zero.2 cfg_cex row_all_nan rfl rfl rfl rfl rfl

/-- C5 (counterexample): with ndvi range = 0 (a non-positive divisor) the
engine does not fail with any ConfigError — no such error exists anywhere in
the code and compute_score_vec has no raise path — it performs the division,
returning −∞ for the site ndvi = 1. -/
theorem zero_divisor_no_config_error_cex :
    cfg_zero_range.ndvi_range ≤ 0 ∧
    compute_score_vec [row_ndvi_one] cfg_zero_range = [.inf false] := by
  refine ⟨by norm_num [cfg_zero_range], ?_⟩
  norm_num [compute_score_vec, compute_score_site, siteAccum, stepNdvi, stepSlope,
    stepElevation, stepCarbon, stepLandcover, ndvi_score, cfg_zero_range, row_ndvi_one,
    EFloat.subQ, EFloat.eabs, EFloat.divQ, EFloat.qSub, EFloat.mulQ, EFloat.add,
    EFloat.isnan, abs_of_nonneg]

/-- C5 (amended): compute_score_vec performs no divisor validation and cannot
fail: it is total (one output score per input row), and a zero range makes it
perform the IEEE division — producing −∞ whenever ndvi differs from the ideal
and NaN at the ideal — instead of raising. -/
theorem no_divisor_validation :
    (∀ (df : List SiteRow) (cfg : ScoringCfg),
      (compute_score_vec df cfg).length = df.length) ∧
    (∀ (cfg : ScoringCfg) (v : ℚ), cfg.ndvi_range = 0 → v ≠ cfg.ndvi_ideal →
      ndvi_score cfg (.fin v) = .inf false) ∧
    (∀ (cfg : ScoringCfg) (v : ℚ), cfg.ndvi_range = 0 → v = cfg.ndvi_ideal →
      ndvi_score cfg (.fin v) = .nan) := by
  refine ⟨fun df cfg => List.length_map df _, ?_, ?_⟩
  · intro cfg v h0 hne
    have habs : (0:ℚ) < |v - cfg.ndvi_ideal| := abs_pos.mpr (sub_ne_zero.mpr hne)
    simp [ndvi_score, EFloat.subQ, EFloat.eabs, EFloat.divQ, EFloat.qSub, h0, habs,
      habs.ne']
  · intro cfg v h0 heq
    simp [ndvi_score, EFloat.subQ, EFloat.eabs, EFloat.divQ, EFloat.qSub, h0, heq]

/-- Witness for the amended C5 theorem at concrete inputs. -/
theorem no_divisor_validation_witness :
    (compute_score_vec [row_ndvi_one] cfg_zero_range).length = 1 ∧
    ndvi_score cfg_zero_range (.fin 1) = .inf false ∧
    ndvi_score cfg_zero_range (.fin (1/2)) = .nan :=
  ⟨no_divisor_validation.1 [row_ndvi_one] cfg_zero_range,
   no_divisor_validation.2.1 cfg_zero_range 1 rfl (by norm_num [cfg_zero_range]),
   no_divisor_validation.2.2 cfg_zero_range (1/2) rfl (by norm_num [cfg_zero_range])⟩

/-- C6 (counterexample): an infinite ndvi value is NOT treated as absent: it
passes the `~np.isnan` mask, contributes to both sums, and propagates −∞ into
the final score — unlike a genuinely absent row, which scores 0. -/
theorem infinite_value_not_absent_cex :
    (row_ndvi_inf.ndvi).isnan = false ∧
    compute_score_vec [row_ndvi_inf] cfg_cex = [.inf false] ∧
    (EFloat.inf false ≠ .fin 0) ∧
    compute_score_vec [row_all_nan] cfg_cex = [.fin 0] := by
  refine ⟨rfl, ?_, by simp, ?_⟩
  · norm_num [compute_score_vec, compute_score_site, siteAccum, stepNdvi, stepSlope,
      stepElevation, stepCarbon, stepLandcover, ndvi_score, cfg_cex, row_ndvi_inf,
      EFloat.subQ, EFloat.eabs, EFloat.divQ, EFloat.qSub, EFloat.mulQ, EFloat.add,
      EFloat.isnan]
  · norm_num [compute_score_vec, compute_score_site, siteAccum, stepNdvi, stepSlope,
      stepElevation, stepCarbon, stepLandcover, cfg_cex, row_all_nan, EFloat.isnan]

/-- C6 (amended): NaN-valued features (including text coerced to NaN by the
`pd.to_numeric` patch) are treated as absent — the corresponding block leaves
both accumulators untouched — and if every feature value is NaN-or-finite and
the three divisors are nonzero, the returned score is finite (no NaN and no
infinity propagates). Infinite input values, however, are not masked (see the
counterexample). -/
theorem nan_absent_but_infinity_propagates :
    (∀ (cfg : ScoringCfg) (s : SiteRow) (acc : EFloat × ℚ), s.ndvi = .nan →
      stepNdvi cfg s acc = acc) ∧
    (∀ (cfg : ScoringCfg) (s : SiteRow) (acc : EFloat × ℚ), s.slope = .nan →
      stepSlope cfg s acc = acc) ∧
    (∀ (cfg : ScoringCfg) (s : SiteRow) (acc : EFloat × ℚ), s.elevation = .nan →
      stepElevation cfg s acc = acc) ∧
    (∀ (cfg : ScoringCfg) (s : SiteRow) (acc : EFloat × ℚ), s.carbon = .nan →
      stepCarbon cfg s acc = acc) ∧
    (∀ (cfg : ScoringCfg) (s : SiteRow) (acc : EFloat × ℚ), s.landcover = .nan →
      stepLandcover cfg s acc = acc) ∧
    (∀ (parse : String → Option EFloat) (s : String), parse s = none →
      to_numeric_coerce parse (.txt s) = .nan) ∧
    (∀ (cfg : ScoringCfg) (s : SiteRow), cfg.ndvi_range ≠ 0 → cfg.elevation_range ≠ 0 →
      cfg.slope_max_deg ≠ 0 → cfg.carbon_norm_div ≠ 0 → finOrNan s.ndvi → finOrNan s.slope →
      finOrNan s.elevation → finOrNan s.carbon → finOrNan s.landcover →
      ∃ q : ℚ, compute_score_site cfg s = .fin q) := by
  refine ⟨?_, ?_, ?_, ?_, ?_, ?_, ?_⟩
  · intro cfg s acc h; simp [stepNdvi, h, EFloat.isnan]
  · intro cfg s acc h; simp [stepSlope, h, EFloat.isnan]
  · intro cfg s acc h; simp [stepElevation, h, EFloat.isnan]
  · intro cfg s acc h; simp [stepCarbon, h, EFloat.isnan]
  · intro cfg s acc h; simp [stepLandcover, h, EFloat.isnan]
  · intro parse s h; simp [to_numeric_coerce, h]
  · intro cfg s h1 h2 h3 h4 f1 f2 f3 f4 f5
    obtain ⟨q, hq⟩ := siteAccum_fst_fin cfg s h1 h2 h3 h4 f1 f2 f3 f4 f5
    by_cases hp : 0 < (siteAccum cfg s).2
    · exact ⟨q / (siteAccum cfg s).2, by simp [compute_score_site, hp, hq, EFloat.divQ, hp.ne']⟩
    · exact ⟨0, by simp [compute_score_site, hp]⟩

/-- Witness for the amended C6 theorem at concrete inputs. -/
theorem nan_absent_but_infinity_propagates_witness :
    stepNdvi cfg_cex row_all_nan (.fin 0, 0) = (.fin 0, 0) ∧
    to_numeric_coerce (fun _ => none) (.txt "not a number") = .nan ∧
    ∃ q : ℚ, compute_score_site cfg_cex row_ndvi_half = .fin q :=
  ⟨nan_absent_but_infinity_propagates.1 cfg_cex row_all_nan (.fin 0, 0) rfl,
   nan_absent_but_infinity_propagates.2.2.2.2.2.1 (fun _ => none) "not a number" rfl,
   nan_absent_but_infinity_propagates.2.2.2.2.2.2 cfg_cex row_ndvi_half
     (by norm_num [cfg_cex]) (by norm_num [cfg_cex]) (by norm_num [cfg_cex])
     (by norm_num [cfg_cex]) (Or.inr ⟨1/2, rfl⟩) (Or.inl rfl) (Or.inl rfl)
     (Or.inl rfl) (Or.inl rfl)⟩

/-!
Evaluation orchestrator — src/generate_character_dialogue.py.

The OpenAI chat service is modelled as an oracle: a function from the request
data (system prompt, user prompt, max_tokens, temperature) and the attempt
number to either a reply text or an error description.  Per-call
nondeterminism is captured by keying the oracle additionally on the task name
(one oracle per character task, one for the summary task, one family per
site).  `asyncio.gather` preserves task order, so the character result list is
the map over the configured characters; `asyncio.as_completed` in main()
yields each site task exactly once in completion order, modelled here as
submission order (all the properties proved below are insensitive to the
emission order).
-/

/-- Chat-service oracle: system prompt, user prompt, max_tokens, temperature,
attempt number (0-based) ↦ reply text or error description. -/
abbrev ChatSvc := String → String → ℕ → ℚ → ℕ → Except String String

/-- The retry loop of tenacity `stop_after_attempt(5), reraise=True` around
one request: `fuel` remaining retries after the current attempt `i`; the last
attempt's error is re-raised. -/
def retryLoop (svc : ℕ → Except String String) : ℕ → ℕ → Except String String
  | 0, i => svc i
  | n + 1, i =>
    match svc i with
    | .ok t => .ok t
    | .error _ => retryLoop svc n (i + 1)

/-- The function `call_chat_async`: one chat request retried up to 5 attempts. -/
def call_chat_async (svc : ChatSvc) (system_prompt user_prompt : String)
    (max_tokens : ℕ) (temperature : ℚ) : Except String String :=
  retryLoop (svc system_prompt user_prompt max_tokens temperature) 4 0

/-- One character's prompt configuration (an entry of
prompt_templates_dialogue.json); `input_template` models a format string
applied to keyword arguments, `style` defaults to the empty string. -/
structure CharCfg where
  role : String
  style : String
  instruction : String
  input_template : List (String × String) → String

/-- The per-character temperature override map of evaluate_character
(`temp_map.get(char_name.lower(), base)`), float literals as rationals. -/
def character_temperature (char_name : String) (base : ℚ) : ℚ :=
  if char_name.toLower = "explorer" then base + 1/5
  else if char_name.toLower = "engineer" then base
  else if char_name.toLower = "skeptic" then max (1/10) (base - 3/10)
  else if char_name.toLower = "historian" then base
  else if char_name.toLower = "ecologist" then base
  else base

/-- The function `evaluate_character`: build the prompts, call the service with retry, and
catch any exception into an error-placeholder text (`f"[Error] {...}"`, the
exception description modelled as the error string). -/
def evaluate_character (svc : ChatSvc) (char_name : String) (char_cfg : CharCfg)
    (site_info : List (String × String)) (max_tokens : ℕ) (base_temperature : ℚ) :
    String × String :=
  let temperature := character_temperature char_name base_temperature
  let system_prompt := char_cfg.role ++ "\n" ++ char_cfg.style
  let user_prompt := char_cfg.instruction ++ "\n\n" ++ char_cfg.input_template site_info
  match call_chat_async svc system_prompt user_prompt max_tokens temperature with
  | .ok t => (char_name, t)
  | .error e => (char_name, "[Error] " ++ e)

/-- Python dict lookup with default (`d.get(k, default)`) over an association
list; later bindings shadow earlier ones as in a dict comprehension. -/
def dictGet (l : List (String × String)) (k d : String) : String :=
  match (l.filter (fun p => p.1 = k)).getLast? with
  | some p => p.2
  | none => d

/-- Dict lookup of a character configuration by key. -/
def cfgGet (l : List (String × CharCfg)) (k : String) : Option CharCfg :=
  ((l.filter (fun p => p.1 = k)).getLast?).map (fun p => p.2)

/-- The per-site evaluation record (site_metadata / characters / summary). -/
structure SiteRecord where
  site_id : String
  site_info : List (String × String)
  characters : List (String × String)
  summary : String

/-- The `char_results` list of evaluate_site: every configured character
except "summary", evaluated in configuration order (asyncio.gather preserves
order), each task with its own service oracle. -/
def charResults (svc : String → ChatSvc) (prompt_cfg : List (String × CharCfg))
    (site_info : List (String × String)) (max_tokens : ℕ) (temperature : ℚ) :
    List (String × String) :=
  (prompt_cfg.filter (fun p => p.1 ≠ "summary")).map
    (fun p => evaluate_character (svc p.1) p.1 p.2 site_info max_tokens temperature)

/-- The function `evaluate_site`: evaluate all characters, then — if a "summary" character
is configured — build its input from the outputs of the five fixed character
names (missing ones default to "") and call the service once more.  The
summary call is NOT wrapped in try/except: its permanent failure raises out
of evaluate_site, modelled as `.error`. -/
def evaluate_site (svc : String → ChatSvc) (site_id : String)
    (site_info : List (String × String)) (prompt_cfg : List (String × CharCfg))
    (max_tokens : ℕ) (temperature : ℚ) : Except String SiteRecord :=
  let characters := charResults svc prompt_cfg site_info max_tokens temperature
  match cfgGet prompt_cfg "summary" with
  | some sum_cfg =>
    let system_prompt := sum_cfg.role ++ "\n" ++ sum_cfg.style
    let summary_input := sum_cfg.input_template
      [("explorer_opinion", dictGet characters "explorer" ""),
       ("engineer_opinion", dictGet characters "engineer" ""),
       ("skeptic_opinion", dictGet characters "skeptic" ""),
       ("historian_opinion", dictGet characters "historian" ""),
       ("ecologist_opinion", dictGet characters "ecologist" "")]
    match call_chat_async (svc "summary") system_prompt summary_input max_tokens temperature with
    | .ok t => .ok ⟨site_id, site_info, characters, t⟩
    | .error e => .error e
  | none => .ok ⟨site_id, site_info, characters, ""⟩

/-- The batch loop of main(): one evaluate_site task per unit; a task that
completes yields a saved record, a task that raises appends
`("unknown", str(e))` to the `failed` ledger.  Returns (records, ledger). -/
def mainRun (svc : String → String → ChatSvc) (prompt_cfg : List (String × CharCfg))
    (max_tokens : ℕ) (temperature : ℚ) :
    List (String × List (String × String)) → List SiteRecord × List (String × String)
  | [] => ([], [])
  | u :: rest =>
    let tail := mainRun svc prompt_cfg max_tokens temperature rest
    match evaluate_site (svc u.1) u.1 u.2 prompt_cfg max_tokens temperature with
    | .ok r => (r :: tail.1, tail.2)
    | .error e => (tail.1, ("unknown", e) :: tail.2)

lemma retryLoop_ok_of_succ :
    ∀ (k fuel i : ℕ) (svc : ℕ → Except String String) (t : String), k ≤ fuel →
      (∀ j, j < k → ∃ e, svc (i + j) = .error e) → svc (i + k) = .ok t →
      retryLoop svc fuel i = .ok t := by
  intro k
  induction k with
  | zero =>
    intro fuel i svc t _ _ hok
    rw [Nat.add_zero] at hok
    cases fuel with
    | zero => simpa [retryLoop] using hok
    | succ n => simp [retryLoop, hok]
  | succ k ih =>
    intro fuel i svc t hk hfail hok
    obtain ⟨n, rfl⟩ : ∃ n, fuel = n + 1 := ⟨fuel - 1, by omega⟩
    obtain ⟨e, he⟩ := hfail 0 (Nat.succ_pos k)
    rw [Nat.add_zero] at he
    rw [retryLoop, he]
    refine ih n (i + 1) svc t (by omega) ?_ ?_
    · intro j hj
      obtain ⟨e', he'⟩ := hfail (j + 1) (by omega)
      have harg : i + (j + 1) = i + 1 + j := by omega
      rw [harg] at he'
      exact ⟨e', he'⟩
    · have harg : i + (k + 1) = i + 1 + k := by omega
      rw [harg] at hok
      exact hok

lemma retryLoop_all_fail :
    ∀ (fuel i : ℕ) (svc : ℕ → Except String String),
      (∀ j, j ≤ fuel → ∃ e, svc (i + j) = .error e) →
      retryLoop svc fuel i = svc (i + fuel) := by
  intro fuel
  induction fuel with
  | zero => intro i svc _; simp [retryLoop]
  | succ n ih =>
    intro i svc hfail
    obtain ⟨e, he⟩ := hfail 0 (by omega)
    rw [Nat.add_zero] at he
    rw [retryLoop, he]
    have hih := ih (i + 1) svc (fun j hj => by
      obtain ⟨e', he'⟩ := hfail (j + 1) (by omega)
      have harg : i + (j + 1) = i + 1 + j := by omega
      rw [harg] at he'
      exact ⟨e', he'⟩)
    have harg : i + 1 + n = i + (n + 1) := by omega
    rw [hih, harg]

lemma retryLoop_congr :
    ∀ (fuel i : ℕ) (svc1 svc2 : ℕ → Except String String),
      (∀ j, j ≤ fuel → svc1 (i + j) = svc2 (i + j)) →
      retryLoop svc1 fuel i = retryLoop svc2 fuel i := by
  intro fuel
  induction fuel with
  | zero =>
    intro i svc1 svc2 h
    have := h 0 (le_refl 0)
    rw [Nat.add_zero] at this
    simp [retryLoop, this]
  | succ n ih =>
    intro i svc1 svc2 h
    have h0 := h 0 (by omega)
    rw [Nat.add_zero] at h0
    rw [retryLoop, retryLoop, h0]
    cases svc2 i with
    | ok t => rfl
    | error e =>
      exact ih (i + 1) svc1 svc2 (fun j hj => by
        have hjj := h (j + 1) (by omega)
        have harg : i + (j + 1) = i + 1 + j := by omega
        rw [harg] at hjj
        exact hjj)

/-- The oracle of one task fails its first `k` attempts and succeeds at
attempt `k` with text `t`, uniformly in the request data. -/
def SvcSucceedsAt (svc : ChatSvc) (k : ℕ) (t : String) : Prop :=
  (∀ sys usr mt temp j, j < k → ∃ e, svc sys usr mt temp j = .error e) ∧
  (∀ sys usr mt temp, svc sys usr mt temp k = .ok t)

/-- The oracle of one task fails every attempt the retry policy can make
(the first 5), uniformly in the request data. -/
def SvcAllFail (svc : ChatSvc) : Prop :=
  ∀ sys usr mt temp j, j < 5 → ∃ e, svc sys usr mt temp j = .error e

lemma call_chat_async_ok (svc : ChatSvc) (sys usr : String) (mt : ℕ) (temp : ℚ)
    (k : ℕ) (t : String) (hk : k < 5) (h : SvcSucceedsAt svc k t) :
    call_chat_async svc sys usr mt temp = .ok t := by
  refine retryLoop_ok_of_succ k 4 0 _ t (by omega) ?_ ?_
  · intro j hj
    simpa using h.1 sys usr mt temp j hj
  · simpa using h.2 sys usr mt temp

lemma call_chat_async_all_fail (svc : ChatSvc) (sys usr : String) (mt : ℕ) (temp : ℚ)
    (h : SvcAllFail svc) :
    ∃ e, call_chat_async svc sys usr mt temp = .error e ∧
      svc sys usr mt temp 4 = .error e := by
  have h4 : retryLoop (svc sys usr mt temp) 4 0 = svc sys usr mt temp 4 := by
    have := retryLoop_all_fail 4 0 (svc sys usr mt temp)
      (fun j hj => by simpa using h sys usr mt temp j (by omega))
    simpa using this
  obtain ⟨e, he⟩ := h sys usr mt temp 4 (by omega)
  exact ⟨e, by rw [call_chat_async, h4, he], he⟩

lemma evaluate_character_fst (svc : ChatSvc) (c : String) (ccfg : CharCfg)
    (info : List (String × String)) (mt : ℕ) (temp : ℚ) :
    (evaluate_character svc c ccfg info mt temp).1 = c := by
  simp only [evaluate_character]
  cases call_chat_async svc (ccfg.role ++ "\n" ++ ccfg.style)
    (ccfg.instruction ++ "\n\n" ++ ccfg.input_template info) mt
    (character_temperature c temp) <;> rfl

lemma evaluate_character_ok (svc : ChatSvc) (c : String) (ccfg : CharCfg)
    (info : List (String × String)) (mt : ℕ) (temp : ℚ) (k : ℕ) (t : String)
    (hk : k < 5) (h : SvcSucceedsAt svc k t) :
    evaluate_character svc c ccfg info mt temp = (c, t) := by
  simp only [evaluate_character]
  rw [call_chat_async_ok svc _ _ mt (character_temperature c temp) k t hk h]

lemma evaluate_character_placeholder (svc : ChatSvc) (c : String) (ccfg : CharCfg)
    (info : List (String × String)) (mt : ℕ) (temp : ℚ) (h : SvcAllFail svc) :
    ∃ e, svc (ccfg.role ++ "\n" ++ ccfg.style)
        (ccfg.instruction ++ "\n\n" ++ ccfg.input_template info) mt
        (character_temperature c temp) 4 = .error e ∧
      evaluate_character svc c ccfg info mt temp = (c, "[Error] " ++ e) := by
  obtain ⟨e, he, he4⟩ := call_chat_async_all_fail svc
    (ccfg.role ++ "\n" ++ ccfg.style)
    (ccfg.instruction ++ "\n\n" ++ ccfg.input_template info) mt
    (character_temperature c temp) h
  refine ⟨e, he4, ?_⟩
  simp only [evaluate_character]
  rw [he]

lemma charResults_mem (svc : String → ChatSvc) (prompt_cfg : List (String × CharCfg))
    (info : List (String × String)) (mt : ℕ) (temp : ℚ) (c : String) (ccfg : CharCfg)
    (hc : (c, ccfg) ∈ prompt_cfg) (hcs : c ≠ "summary") :
    evaluate_character (svc c) c ccfg info mt temp ∈ charResults svc prompt_cfg info mt temp := by
  unfold charResults
  exact List.mem_map_of_mem _ (List.mem_filter.mpr ⟨hc, by simpa using hcs⟩)

lemma evaluate_site_no_summary (svc : String → ChatSvc) (sid : String)
    (info : List (String × String)) (prompt_cfg : List (String × CharCfg))
    (mt : ℕ) (temp : ℚ) (h : cfgGet prompt_cfg "summary" = none) :
    evaluate_site svc sid info prompt_cfg mt temp =
      .ok ⟨sid, info, charResults svc prompt_cfg info mt temp, ""⟩ := by
  simp [evaluate_site, h]

lemma evaluate_site_summary_fail (svc : String → ChatSvc) (sid : String)
    (info : List (String × String)) (prompt_cfg : List (String × CharCfg))
    (mt : ℕ) (temp : ℚ) (sum_cfg : CharCfg)
    (hs : cfgGet prompt_cfg "summary" = some sum_cfg) (hf : SvcAllFail (svc "summary")) :
    ∃ e, evaluate_site svc sid info prompt_cfg mt temp = .error e := by
  obtain ⟨e, he, _⟩ := call_chat_async_all_fail (svc "summary")
    (sum_cfg.role ++ "\n" ++ sum_cfg.style)
    (sum_cfg.input_template
      [("explorer_opinion", dictGet (charResults svc prompt_cfg info mt temp) "explorer" ""),
       ("engineer_opinion", dictGet (charResults svc prompt_cfg info mt temp) "engineer" ""),
       ("skeptic_opinion", dictGet (charResults svc prompt_cfg info mt temp) "skeptic" ""),
       ("historian_opinion", dictGet (charResults svc prompt_cfg info mt temp) "historian" ""),
       ("ecologist_opinion", dictGet (charResults svc prompt_cfg info mt temp) "ecologist" "")])
    mt temp hf
  refine ⟨e, ?_⟩
  simp only [evaluate_site, hs]
  rw [he]

lemma evaluate_site_summary_ok (svc : String → ChatSvc) (sid : String)
    (info : List (String × String)) (prompt_cfg : List (String × CharCfg))
    (mt : ℕ) (temp : ℚ) (sum_cfg : CharCfg)
    (hs : cfgGet prompt_cfg "summary" = some sum_cfg)
    (hok : ∀ sys usr, ∃ ts, call_chat_async (svc "summary") sys usr mt temp = .ok ts) :
    ∃ r : SiteRecord, evaluate_site svc sid info prompt_cfg mt temp = .ok r ∧
      r.characters = charResults svc prompt_cfg info mt temp := by
  obtain ⟨ts, hts⟩ := hok
    (sum_cfg.role ++ "\n" ++ sum_cfg.style)
    (sum_cfg.input_template
      [("explorer_opinion", dictGet (charResults svc prompt_cfg info mt temp) "explorer" ""),
       ("engineer_opinion", dictGet (charResults svc prompt_cfg info mt temp) "engineer" ""),
       ("skeptic_opinion", dictGet (charResults svc prompt_cfg info mt temp) "skeptic" ""),
       ("historian_opinion", dictGet (charResults svc prompt_cfg info mt temp) "historian" ""),
       ("ecologist_opinion", dictGet (charResults svc prompt_cfg info mt temp) "ecologist" "")])
  refine ⟨⟨sid, info, charResults svc prompt_cfg info mt temp, ts⟩, ?_, rfl⟩
  simp only [evaluate_site, hs]
  rw [hts]

lemma evaluate_site_cases (svc : String → ChatSvc) (sid : String)
    (info : List (String × String)) (prompt_cfg : List (String × CharCfg))
    (mt : ℕ) (temp : ℚ) :
    (∃ ts, evaluate_site svc sid info prompt_cfg mt temp =
      .ok ⟨sid, info, charResults svc prompt_cfg info mt temp, ts⟩) ∨
    (∃ e, evaluate_site svc sid info prompt_cfg mt temp = .error e) := by
  unfold evaluate_site
  cases cfgGet prompt_cfg "summary" with
  | none => exact Or.inl ⟨"", rfl⟩
  | some sum_cfg =>
    cases hcall : call_chat_async (svc "summary") (sum_cfg.role ++ "\n" ++ sum_cfg.style)
      (sum_cfg.input_template
        [("explorer_opinion", dictGet (charResults svc prompt_cfg info mt temp) "explorer" ""),
         ("engineer_opinion", dictGet (charResults svc prompt_cfg info mt temp) "engineer" ""),
         ("skeptic_opinion", dictGet (charResults svc prompt_cfg info mt temp) "skeptic" ""),
         ("historian_opinion", dictGet (charResults svc prompt_cfg info mt temp) "historian" ""),
         ("ecologist_opinion", dictGet (charResults svc prompt_cfg info mt temp) "ecologist" "")])
      mt temp with
    | ok t => exact Or.inl ⟨t, by simp [hcall]⟩
    | error e => exact Or.inr ⟨e, by simp [hcall]⟩

lemma evaluate_site_ok_shape (svc : String → ChatSvc) (sid : String)
    (info : List (String × String)) (prompt_cfg : List (String × CharCfg))
    (mt : ℕ) (temp : ℚ) (r : SiteRecord)
    (h : evaluate_site svc sid info prompt_cfg mt temp = .ok r) :
    r.site_id = sid ∧ r.characters = charResults svc prompt_cfg info mt temp := by
  rcases evaluate_site_cases svc sid info prompt_cfg mt temp with ⟨ts, hts⟩ | ⟨e, he⟩
  · rw [hts] at h
    injection h with h2
    rw [← h2]
    exact ⟨rfl, rfl⟩
  · rw [he] at h
    exact absurd h (by simp)

lemma mainRun_cons_ok (svc : String → String → ChatSvc)
    (prompt_cfg : List (String × CharCfg)) (mt : ℕ) (temp : ℚ)
    (u : String × List (String × String)) (rest : List (String × List (String × String)))
    (r : SiteRecord) (h : evaluate_site (svc u.1) u.1 u.2 prompt_cfg mt temp = .ok r) :
    mainRun svc prompt_cfg mt temp (u :: rest) =
      (r :: (mainRun svc prompt_cfg mt temp rest).1,
        (mainRun svc prompt_cfg mt temp rest).2) := by
  simp [mainRun, h]

lemma mainRun_cons_err (svc : String → String → ChatSvc)
    (prompt_cfg : List (String × CharCfg)) (mt : ℕ) (temp : ℚ)
    (u : String × List (String × String)) (rest : List (String × List (String × String)))
    (e : String) (h : evaluate_site (svc u.1) u.1 u.2 prompt_cfg mt temp = .error e) :
    mainRun svc prompt_cfg mt temp (u :: rest) =
      ((mainRun svc prompt_cfg mt temp rest).1,
        ("unknown", e) :: (mainRun svc prompt_cfg mt temp rest).2) := by
  simp [mainRun, h]

lemma mainRun_singleton_ok (svc : String → String → ChatSvc)
    (prompt_cfg : List (String × CharCfg)) (mt : ℕ) (temp : ℚ)
    (u : String × List (String × String)) (r : SiteRecord)
    (h : evaluate_site (svc u.1) u.1 u.2 prompt_cfg mt temp = .ok r) :
    mainRun svc prompt_cfg mt temp [u] = ([r], []) := by
  simp [mainRun, h]

lemma mainRun_singleton_err (svc : String → String → ChatSvc)
    (prompt_cfg : List (String × CharCfg)) (mt : ℕ) (temp : ℚ)
    (u : String × List (String × String)) (e : String)
    (h : evaluate_site (svc u.1) u.1 u.2 prompt_cfg mt temp = .error e) :
    mainRun svc prompt_cfg mt temp [u] = ([], [("unknown", e)]) := by
  simp [mainRun, h]

lemma charResults_cons (svc : String → ChatSvc) (p : String × CharCfg)
    (rest : List (String × CharCfg)) (info : List (String × String)) (mt : ℕ) (temp : ℚ) :
    charResults svc (p :: rest) info mt temp =
      if p.1 = "summary" then charResults svc rest info mt temp
      else evaluate_character (svc p.1) p.1 p.2 info mt temp ::
        charResults svc rest info mt temp := by
  simp only [charResults, List.filter_cons]
  by_cases hs : p.1 = "summary" <;> simp [hs]

lemma charResults_filter_name_eq (svc svcB : String → ChatSvc)
    (info : List (String × String)) (mt : ℕ) (temp : ℚ) (n : String)
    (h : svc n = svcB n) (prompt_cfg : List (String × CharCfg)) :
    (charResults svc prompt_cfg info mt temp).filter (fun p => p.1 = n) =
      (charResults svcB prompt_cfg info mt temp).filter (fun p => p.1 = n) := by
  induction prompt_cfg with
  | nil => rfl
  | cons p rest ih =>
    rw [charResults_cons, charResults_cons]
    by_cases hs : p.1 = "summary"
    · simp only [hs, if_true]
      exact ih
    · simp only [hs, if_false]
      rw [List.filter_cons, List.filter_cons]
      have hfst : (evaluate_character (svc p.1) p.1 p.2 info mt temp).1 = p.1 :=
        evaluate_character_fst (svc p.1) p.1 p.2 info mt temp
      by_cases hn : p.1 = n
      · subst hn
        rw [h]
        simp [evaluate_character_fst, ih]
      · have hfst' : (evaluate_character (svcB p.1) p.1 p.2 info mt temp).1 = p.1 :=
          evaluate_character_fst (svcB p.1) p.1 p.2 info mt temp
        simp [hfst, hfst', hn, ih]

lemma dictGet_charResults_eq (svc svcB : String → ChatSvc)
    (info : List (String × String)) (mt : ℕ) (temp : ℚ) (n d : String)
    (h : svc n = svcB n) (prompt_cfg : List (String × CharCfg)) :
    dictGet (charResults svc prompt_cfg info mt temp) n d =
      dictGet (charResults svcB prompt_cfg info mt temp) n d := by
  unfold dictGet
  rw [charResults_filter_name_eq svc svcB info mt temp n h prompt_cfg]

/-- Fixture: a summary character configuration. -/
def sumCfgF : CharCfg := ⟨"r", "s", "i", fun _ => "q"⟩

/-- Fixture: an explorer character configuration. -/
def charCfgA : CharCfg := ⟨"ra", "sa", "ia", fun _ => "ua"⟩

/-- Fixture: a prompt file configuring only the summary step. -/
def cfg_summary_only : List (String × CharCfg) := [("summary", sumCfgF)]

/-- Fixture: a prompt file with one explorer character and a summary step. -/
def cfg_expl_summary : List (String × CharCfg) := [("explorer", charCfgA), ("summary", sumCfgF)]

/-- Fixture: a prompt file with one explorer character and no summary step. -/
def cfg_expl_only : List (String × CharCfg) := [("explorer", charCfgA)]

/-- Fixture: a service on which every request of every task fails. -/
def svcFailAll : String → String → ChatSvc := fun _ _ _ _ _ _ _ => .error "boom"

/-- Fixture: a service on which character requests succeed but every summary
request fails. -/
def svcExplOkSumFail : String → String → ChatSvc :=
  fun _ task _ _ _ _ _ => if task = "summary" then .error "sboom" else .ok "fine"

/-- Fixture: a service failing the first two attempts of every task, then
succeeding. -/
def svcRetryTwice : String → String → ChatSvc :=
  fun _ _ _ _ _ _ i => if i < 2 then .error "transient" else .ok "answer"

/-- C2 (counterexample): a batch with the single unit "site_000" whose summary
step fails permanently yields no record and the ledger entry
`("unknown", "boom")`: the submitted unit id appears in neither the records
nor the ledger, so the union does not cover it. -/
theorem submitted_id_lost_cex :
    mainRun svcFailAll cfg_summary_only 1 0 [("site_000", [])] =
      ([], [("unknown", "boom")]) ∧
    "site_000" ≠ "unknown" := by
  constructor
  · rfl
  · decide

/-- C2 (amended): every submitted unit yields exactly one outcome — an
emitted record (carrying its unit id) or a ledger entry — so
|records| + |ledger| = |units| and the emitted record ids are exactly the ids
of the units whose evaluation completed; but ledger entries carry the literal
placeholder "unknown" instead of the failed unit's id. -/
theorem unit_outcome_exactly_once :
    ∀ (svc : String → String → ChatSvc) (prompt_cfg : List (String × CharCfg))
      (mt : ℕ) (temp : ℚ) (units : List (String × List (String × String))),
      (mainRun svc prompt_cfg mt temp units).1.length +
        (mainRun svc prompt_cfg mt temp units).2.length = units.length ∧
      (mainRun svc prompt_cfg mt temp units).1.map SiteRecord.site_id =
        (units.filter (fun u =>
          (evaluate_site (svc u.1) u.1 u.2 prompt_cfg mt temp).isOk)).map Prod.fst ∧
      ∀ p ∈ (mainRun svc prompt_cfg mt temp units).2, p.1 = "unknown" := by
  intro svc prompt_cfg mt temp units
  induction units with
  | nil =>
    refine ⟨rfl, rfl, ?_⟩
    intro p hp
    simp [mainRun] at hp
  | cons u rest ih =>
    obtain ⟨ih1, ih2, ih3⟩ := ih
    cases h : evaluate_site (svc u.1) u.1 u.2 prompt_cfg mt temp with
    | ok r =>
      have hid := (evaluate_site_ok_shape (svc u.1) u.1 u.2 prompt_cfg mt temp r h).1
      rw [mainRun_cons_ok svc prompt_cfg mt temp u rest r h]
      refine ⟨?_, ?_, ?_⟩
      · simp only [List.length_cons]
        omega
      · rw [List.filter_cons]
        have hb : ((evaluate_site (svc u.1) u.1 u.2 prompt_cfg mt temp).isOk = true) := by
          rw [h]; rfl
        rw [if_pos hb, List.map_cons, List.map_cons, hid, ih2]
      · intro p hp
        exact ih3 p hp
    | error e =>
      rw [mainRun_cons_err svc prompt_cfg mt temp u rest e h]
      refine ⟨?_, ?_, ?_⟩
      · simp only [List.length_cons]
        omega
      · rw [List.filter_cons]
        have hb : ¬ ((evaluate_site (svc u.1) u.1 u.2 prompt_cfg mt temp).isOk = true) := by
          rw [h]
          simp [Except.isOk, Except.toBool]
        rw [if_neg hb]
        exact ih2
      · intro p hp
        rcases List.mem_cons.mp hp with rfl | hp
        · rfl
        · exact ih3 p hp

/-- Witness for the amended C2 theorem at a concrete two-unit batch. -/
theorem unit_outcome_exactly_once_witness :
    (mainRun svcExplOkSumFail cfg_expl_only 1 0 [("site_a", []), ("site_b", [])]).1.length +
      (mainRun svcExplOkSumFail cfg_expl_only 1 0 [("site_a", []), ("site_b", [])]).2.length
      = 2 ∧
    (mainRun svcExplOkSumFail cfg_expl_only 1 0
        [("site_a", []), ("site_b", [])]).1.map SiteRecord.site_id =
      ([("site_a", []), ("site_b", [])].filter
        (fun u => (evaluate_site (svcExplOkSumFail u.1) u.1 u.2
          cfg_expl_only 1 0).isOk)).map Prod.fst :=
  ⟨(unit_outcome_exactly_once svcExplOkSumFail cfg_expl_only 1 0
      [("site_a", []), ("site_b", [])]).1,
   (unit_outcome_exactly_once svcExplOkSumFail cfg_expl_only 1 0
      [("site_a", []), ("site_b", [])]).2.1⟩

/-- C3 (counterexample): in a unit whose explorer task succeeds but whose
summary step fails permanently, the unit is NOT emitted with a placeholder:
evaluate_site raises, no record is produced, and the whole unit lands in the
ledger as `("unknown", "sboom")`. -/
theorem summary_failure_discards_unit_cex :
    mainRun svcExplOkSumFail cfg_expl_summary 1 0 [("site_001", [])] =
      ([], [("unknown", "sboom")]) ∧
    evaluate_character (svcExplOkSumFail "site_001" "explorer") "explorer" charCfgA [] 1 0 =
      ("explorer", "fine") := by
  constructor
  · rfl
  · rfl

/-- C3 (amended): a character task that fails permanently still yields an
emitted record containing the "[Error] ..." placeholder for that character —
both when no summary step is configured and when the configured summary step
succeeds; but a permanently failing summary step aborts the unit: no record
is emitted and the unit becomes a `("unknown", error)` ledger entry. -/
theorem character_placeholder_summary_aborts :
    (∀ (svc : String → ChatSvc) (sid : String) (info : List (String × String))
      (prompt_cfg : List (String × CharCfg)) (mt : ℕ) (temp : ℚ)
      (c : String) (ccfg : CharCfg),
      cfgGet prompt_cfg "summary" = none → (c, ccfg) ∈ prompt_cfg → c ≠ "summary" →
      SvcAllFail (svc c) →
      ∃ r e, evaluate_site svc sid info prompt_cfg mt temp = .ok r ∧
        (c, "[Error] " ++ e) ∈ r.characters) ∧
    (∀ (svc : String → ChatSvc) (sid : String) (info : List (String × String))
      (prompt_cfg : List (String × CharCfg)) (mt : ℕ) (temp : ℚ)
      (c : String) (ccfg : CharCfg) (sum_cfg : CharCfg),
      cfgGet prompt_cfg "summary" = some sum_cfg →
      (∀ sys usr, ∃ ts, call_chat_async (svc "summary") sys usr mt temp = .ok ts) →
      (c, ccfg) ∈ prompt_cfg → c ≠ "summary" → SvcAllFail (svc c) →
      ∃ r e, evaluate_site svc sid info prompt_cfg mt temp = .ok r ∧
        (c, "[Error] " ++ e) ∈ r.characters) ∧
    (∀ (svc : String → String → ChatSvc) (prompt_cfg : List (String × CharCfg))
      (mt : ℕ) (temp : ℚ) (sid : String) (info : List (String × String))
      (sum_cfg : CharCfg),
      cfgGet prompt_cfg "summary" = some sum_cfg → SvcAllFail (svc sid "summary") →
      ∃ e, mainRun svc prompt_cfg mt temp [(sid, info)] = ([], [("unknown", e)])) := by
  refine ⟨?_, ?_, ?_⟩
  · intro svc sid info prompt_cfg mt temp c ccfg hns hmem hcs hfail
    obtain ⟨e, _, hec⟩ := evaluate_character_placeholder (svc c) c ccfg info mt temp hfail
    refine ⟨⟨sid, info, charResults svc prompt_cfg info mt temp, ""⟩, e,
      evaluate_site_no_summary svc sid info prompt_cfg mt temp hns, ?_⟩
    have hm := charResults_mem svc prompt_cfg info mt temp c ccfg hmem hcs
    rwa [hec] at hm
  · intro svc sid info prompt_cfg mt temp c ccfg sum_cfg hs hok hmem hcs hfail
    obtain ⟨e, _, hec⟩ := evaluate_character_placeholder (svc c) c ccfg info mt temp hfail
    obtain ⟨r, hr, hrc⟩ :=
      evaluate_site_summary_ok svc sid info prompt_cfg mt temp sum_cfg hs hok
    refine ⟨r, e, hr, ?_⟩
    have hm := charResults_mem svc prompt_cfg info mt temp c ccfg hmem hcs
    rw [hec] at hm
    rwa [hrc]
  · intro svc prompt_cfg mt temp sid info sum_cfg hs hfail
    obtain ⟨e, he⟩ :=
      evaluate_site_summary_fail (svc sid) sid info prompt_cfg mt temp sum_cfg hs hfail
    exact ⟨e, mainRun_singleton_err svc prompt_cfg mt temp (sid, info) e he⟩

/-- Witness for the amended C3 theorem: a permanently failing explorer task
in a summary-free configuration still yields an emitted record with a
placeholder. -/
theorem character_placeholder_summary_aborts_witness :
    ∃ r e, evaluate_site (svcFailAll "site_x") "site_x" [] cfg_expl_only 3 0 = .ok r ∧
      ("explorer", "[Error] " ++ e) ∈ r.characters :=
  character_placeholder_summary_aborts.1 (svcFailAll "site_x") "site_x" [] cfg_expl_only 3 0
    "explorer" charCfgA rfl (by simp [cfg_expl_only]) (by decide)
    (fun _ _ _ _ j _ => ⟨"boom", rfl⟩)

/-- C4: the retry wrapper succeeds as soon as a task's service fails fewer
than 5 times and then succeeds; the result depends only on the first five
attempts (so no task is retried beyond the ceiling); a task failing all five
attempts resolves to the last attempt's error; and a before-the-ceiling
success of a character task puts its text into the emitted record with an
empty ledger. -/
theorem retry_bounded_success_in_record :
    (∀ (svc : ChatSvc) (sys usr : String) (mt : ℕ) (temp : ℚ) (k : ℕ) (t : String),
      k < 5 → SvcSucceedsAt svc k t → call_chat_async svc sys usr mt temp = .ok t) ∧
    (∀ (svc1 svc2 : ChatSvc) (sys usr : String) (mt : ℕ) (temp : ℚ),
      (∀ j, j < 5 → svc1 sys usr mt temp j = svc2 sys usr mt temp j) →
      call_chat_async svc1 sys usr mt temp = call_chat_async svc2 sys usr mt temp) ∧
    (∀ (svc : ChatSvc) (sys usr : String) (mt : ℕ) (temp : ℚ), SvcAllFail svc →
      ∃ e, call_chat_async svc sys usr mt temp = .error e ∧
        svc sys usr mt temp 4 = .error e) ∧
    (∀ (svc : String → String → ChatSvc) (prompt_cfg : List (String × CharCfg))
      (mt : ℕ) (temp : ℚ) (sid : String) (info : List (String × String))
      (c : String) (ccfg : CharCfg) (k : ℕ) (t : String),
      cfgGet prompt_cfg "summary" = none → (c, ccfg) ∈ prompt_cfg → c ≠ "summary" →
      k < 5 → SvcSucceedsAt (svc sid c) k t →
      ∃ r, mainRun svc prompt_cfg mt temp [(sid, info)] = ([r], []) ∧
        (c, t) ∈ r.characters) := by
  refine ⟨?_, ?_, ?_, ?_⟩
  · intro svc sys usr mt temp k t hk h
    exact call_chat_async_ok svc sys usr mt temp k t hk h
  · intro svc1 svc2 sys usr mt temp h
    exact retryLoop_congr 4 0 (svc1 sys usr mt temp) (svc2 sys usr mt temp)
      (fun j hj => by simpa using h j (by omega))
  · intro svc sys usr mt temp h
    exact call_chat_async_all_fail svc sys usr mt temp h
  · intro svc prompt_cfg mt temp sid info c ccfg k t hns hmem hcs hk hsucc
    have hev : evaluate_site (svc sid) sid info prompt_cfg mt temp =
        .ok ⟨sid, info, charResults (svc sid) prompt_cfg info mt temp, ""⟩ :=
      evaluate_site_no_summary (svc sid) sid info prompt_cfg mt temp hns
    refine ⟨⟨sid, info, charResults (svc sid) prompt_cfg info mt temp, ""⟩,
      mainRun_singleton_ok svc prompt_cfg mt temp (sid, info) _ hev, ?_⟩
    have hm := charResults_mem (svc sid) prompt_cfg info mt temp c ccfg hmem hcs
    rwa [evaluate_character_ok (svc sid c) c ccfg info mt temp k t hk hsucc] at hm

/-- Witness for C4: a task failing twice then succeeding lands its text in
the emitted record of a one-unit batch with an empty ledger. -/
theorem retry_bounded_success_in_record_witness :
    ∃ r, mainRun svcRetryTwice cfg_expl_only 3 0 [("site_w", [])] = ([r], []) ∧
      ("explorer", "answer") ∈ r.characters :=
  retry_bounded_success_in_record.2.2.2 svcRetryTwice cfg_expl_only 3 0 "site_w" []
    "explorer" charCfgA 2 "answer" rfl (by simp [cfg_expl_only]) (by decide) (by omega)
    ⟨fun _ _ _ _ j hj => ⟨"transient", by simp [svcRetryTwice, hj]⟩,
     fun _ _ _ _ => by simp [svcRetryTwice]⟩

/-- C10: the summary step's input is built exclusively from the outputs of
the five fixed character names (explorer, engineer, skeptic, historian,
ecologist; a missing one is substituted by ""): two services agreeing on
those five tasks and on the summary task produce the same summary outcome no
matter what any other configured character returned — while every other
non-summary character still gets its own entry in the emitted record. -/
theorem summary_reads_only_five_characters
    (svc svcB : String → ChatSvc) (prompt_cfg : List (String × CharCfg)) (sid : String)
    (info : List (String × String)) (mt : ℕ) (temp : ℚ)
    (h : ∀ n, n ∈ (["explorer", "engineer", "skeptic", "historian", "ecologist",
      "summary"] : List String) → svc n = svcB n) :
    Except.map SiteRecord.summary (evaluate_site svc sid info prompt_cfg mt temp) =
      Except.map SiteRecord.summary (evaluate_site svcB sid info prompt_cfg mt temp) ∧
    (∀ r, evaluate_site svc sid info prompt_cfg mt temp = .ok r →
      ∀ p ∈ prompt_cfg, p.1 ≠ "summary" → ∃ t, (p.1, t) ∈ r.characters) := by
  constructor
  · have e1 := dictGet_charResults_eq svc svcB info mt temp "explorer" ""
      (h "explorer" (by simp)) prompt_cfg
    have e2 := dictGet_charResults_eq svc svcB info mt temp "engineer" ""
      (h "engineer" (by simp)) prompt_cfg
    have e3 := dictGet_charResults_eq svc svcB info mt temp "skeptic" ""
      (h "skeptic" (by simp)) prompt_cfg
    have e4 := dictGet_charResults_eq svc svcB info mt temp "historian" ""
      (h "historian" (by simp)) prompt_cfg
    have e5 := dictGet_charResults_eq svc svcB info mt temp "ecologist" ""
      (h "ecologist" (by simp)) prompt_cfg
    have hsum := h "summary" (by simp)
    simp only [evaluate_site]
    cases cfgGet prompt_cfg "summary" with
    | none => rfl
    | some sum_cfg =>
      rw [e1, e2, e3, e4, e5, hsum]
      cases hcall : call_chat_async (svcB "summary") (sum_cfg.role ++ "\n" ++ sum_cfg.style)
        (sum_cfg.input_template
          [("explorer_opinion", dictGet (charResults svcB prompt_cfg info mt temp)
            "explorer" ""),
           ("engineer_opinion", dictGet (charResults svcB prompt_cfg info mt temp)
            "engineer" ""),
           ("skeptic_opinion", dictGet (charResults svcB prompt_cfg info mt temp)
            "skeptic" ""),
           ("historian_opinion", dictGet (charResults svcB prompt_cfg info mt temp)
            "historian" ""),
           ("ecologist_opinion", dictGet (charResults svcB prompt_cfg info mt temp)
            "ecologist" "")])
        mt temp with
      | ok t => simp [hcall, Except.map]
      | error e => simp [hcall, Except.map]
  · intro r hr p hp hps
    have hch := (evaluate_site_ok_shape svc sid info prompt_cfg mt temp r hr).2
    have hmem : (p.1, p.2) ∈ prompt_cfg := by rwa [Prod.mk.eta]
    have hm := charResults_mem svc prompt_cfg info mt temp p.1 p.2 hmem hps
    refine ⟨(evaluate_character (svc p.1) p.1 p.2 info mt temp).2, ?_⟩
    rw [hch]
    have hfst := evaluate_character_fst (svc p.1) p.1 p.2 info mt temp
    have hx : (p.1, (evaluate_character (svc p.1) p.1 p.2 info mt temp).2) =
        evaluate_character (svc p.1) p.1 p.2 info mt temp := by
      have heta := Prod.mk.eta (p := evaluate_character (svc p.1) p.1 p.2 info mt temp)
      rw [hfst] at heta
      exact heta
    rw [hx]
    exact hm

/-- Witness for C10 at a concrete configuration and service. -/
theorem summary_reads_only_five_characters_witness :
    Except.map SiteRecord.summary
        (evaluate_site (svcRetryTwice "site_w") "site_w" [] cfg_expl_summary 3 0) =
      Except.map SiteRecord.summary
        (evaluate_site (svcRetryTwice "site_w") "site_w" [] cfg_expl_summary 3 0) :=
  (summary_reads_only_five_characters (svcRetryTwice "site_w") (svcRetryTwice "site_w")
    cfg_expl_summary "site_w" [] 3 0 (fun _ _ => rfl)).1

/-!
Clustering engine — src/generate_hypotheses.py, steps 1 (top-quantile
filter), 3 (DBSCAN labelling and noise removal) and 4 (groupby over the
cluster column).

External collaborators are taken as parameters: `theta` is the value of
`gdf["site_score"].quantile(cfg["top_quantile"])` (pandas), and `labels` is
the label column `DBSCAN(...).fit_predict(coords)` (sklearn), aligned with
the filtered rows; label −1 marks noise.  The planar projection changes
coordinates only, never row membership, and the per-cluster hull/statistics
are derived from a group after membership is fixed, so neither affects the
membership properties below.  `pandas.groupby` enumerates groups in
ascending key order (sort=True is its default) and each group keeps the
original row order and carries the cluster column.
-/

/-- One scored candidate row entering the clustering stage. -/
structure CSite where
  sid : ℕ
  site_score : ℚ
deriving DecidableEq, Repr

/-- Step 1: `gdf[gdf["site_score"] >= theta]`. -/
def topFilter (sites : List CSite) (theta : ℚ) : List CSite :=
  sites.filter (fun s => theta ≤ s.site_score)

/-- Step 3: attach the DBSCAN label column to the filtered rows and drop
noise (`gdf_proj[gdf_proj["cluster"] != -1]`). -/
def labeledPoints (sites : List CSite) (theta : ℚ) (labels : List ℤ) : List (CSite × ℤ) :=
  ((topFilter sites theta).zip labels).filter (fun p => p.2 ≠ -1)

/-- The group keys of `groupby("cluster")`: the distinct non-noise labels in
ascending order. -/
def clusterIds (sites : List CSite) (theta : ℚ) (labels : List ℤ) : List ℤ :=
  List.insertionSort (· ≤ ·) ((labeledPoints sites theta labels).map Prod.snd).dedup

/-- Step 4: `for cid, sub in gdf_proj.groupby("cluster")` — each cluster id
with its member rows (each row still carrying its label column). -/
def runClusters (sites : List CSite) (theta : ℚ) (labels : List ℤ) :
    List (ℤ × List (CSite × ℤ)) :=
  (clusterIds sites theta labels).map
    (fun c => (c, (labeledPoints sites theta labels).filter (fun p => p.2 = c)))

lemma join_groups_perm :
    ∀ (ids : List ℤ) (pts : List (CSite × ℤ)), ids.Nodup → (∀ x ∈ pts, x.2 ∈ ids) →
      ((ids.map (fun c => pts.filter (fun p => p.2 = c))).flatten).Perm pts := by
  intro ids
  induction ids with
  | nil =>
    intro pts _ hcov
    have hnil : pts = [] := by
      rw [List.eq_nil_iff_forall_not_mem]
      intro x hx
      simpa using hcov x hx
    simp [hnil]
  | cons c rest ih =>
    intro pts hnd hcov
    rw [List.map_cons, List.flatten_cons]
    have hsplit := List.filter_append_perm (fun p : CSite × ℤ => decide (p.2 = c)) pts
    have hcov2 : ∀ x ∈ pts.filter (fun p => !(decide (p.2 = c))), x.2 ∈ rest := by
      intro x hx
      obtain ⟨hxp, hxc⟩ := List.mem_filter.mp hx
      have hxc' : ¬ (x.2 = c) := by simpa using hxc
      rcases List.mem_cons.mp (hcov x hxp) with h | h
      · exact absurd h hxc'
      · exact h
    have hperm2 := ih (pts.filter (fun p => !(decide (p.2 = c)))) hnd.of_cons hcov2
    have hrest : rest.map (fun d => pts.filter (fun p => p.2 = d)) =
        rest.map (fun d =>
          (pts.filter (fun p => !(decide (p.2 = c)))).filter (fun p => p.2 = d)) := by
      apply List.map_congr_left
      intro d hd
      have hdc : d ≠ c := by
        rintro rfl
        exact (List.nodup_cons.mp hnd).1 hd
      rw [List.filter_filter]
      apply List.filter_congr
      intro a _
      by_cases had : a.2 = d
      · have hac : ¬ (a.2 = c) := by rw [had]; exact hdc
        simp [had, hac, hdc]
      · simp [had]
    rw [hrest]
    exact (hperm2.append_left (pts.filter (fun p => p.2 = c))).trans hsplit

lemma clusterIds_nodup (sites : List CSite) (theta : ℚ) (labels : List ℤ) :
    (clusterIds sites theta labels).Nodup :=
  (List.perm_insertionSort (· ≤ ·) _).symm.nodup
    (List.nodup_dedup ((labeledPoints sites theta labels).map Prod.snd))

lemma clusterIds_cover (sites : List CSite) (theta : ℚ) (labels : List ℤ) :
    ∀ x ∈ labeledPoints sites theta labels, x.2 ∈ clusterIds sites theta labels := by
  intro x hx
  have : x.2 ∈ (labeledPoints sites theta labels).map Prod.snd :=
    List.mem_map_of_mem Prod.snd hx
  rw [clusterIds, (List.perm_insertionSort (· ≤ ·) _).mem_iff]
  exact List.mem_dedup.mpr this

/-- C7: the clusters produced by one run partition the quantile-filtered,
noise-free input: the concatenation of all member lists is a permutation of
the filtered non-noise rows (so every such row is in exactly one cluster,
counted with multiplicity), and two clusters with different ids share no
member. -/
theorem clusters_partition_nonnoise (sites : List CSite) (theta : ℚ) (labels : List ℤ) :
    (((runClusters sites theta labels).map Prod.snd).flatten).Perm
      (labeledPoints sites theta labels) ∧
    (∀ g1 ∈ runClusters sites theta labels, ∀ g2 ∈ runClusters sites theta labels,
      g1.1 ≠ g2.1 → ∀ x, x ∈ g1.2 → x ∉ g2.2) := by
  constructor
  · have h := join_groups_perm (clusterIds sites theta labels)
      (labeledPoints sites theta labels) (clusterIds_nodup sites theta labels)
      (clusterIds_cover sites theta labels)
    simpa [runClusters, List.map_map, Function.comp] using h
  · intro g1 hg1 g2 hg2 hne x hx1 hx2
    obtain ⟨c1, _, rfl⟩ := List.mem_map.mp hg1
    obtain ⟨c2, _, rfl⟩ := List.mem_map.mp hg2
    have h1 : x.2 = c1 := by simpa using (List.mem_filter.mp hx1).2
    have h2 : x.2 = c2 := by simpa using (List.mem_filter.mp hx2).2
    exact hne (by rw [← h1, ← h2])

/-- Witness for C7 at a concrete run (two clusters, labels out of input
order, one site filtered out by the quantile threshold). -/
theorem clusters_partition_nonnoise_witness :
    (((runClusters [⟨0, 2⟩, ⟨1, 3⟩, ⟨2, 0⟩] 1 [3, 0]).map Prod.snd).flatten).Perm
      (labeledPoints [⟨0, 2⟩, ⟨1, 3⟩, ⟨2, 0⟩] 1 [3, 0]) :=
  (clusters_partition_nonnoise [⟨0, 2⟩, ⟨1, 3⟩, ⟨2, 0⟩] 1 [3, 0]).1

/-- C8: cluster ids are emitted in strictly ascending order of the density
labels (pandas groupby sorts keys, it does not follow input iteration
order); the emitted ids are exactly the sorted distinct non-noise labels;
and each cluster's membership is exactly the filtered rows carrying its
label — so membership is a pure function of the inputs and the label column,
identical across reruns on identical inputs. -/
theorem cluster_ids_sorted_and_membership (sites : List CSite) (theta : ℚ)
    (labels : List ℤ) :
    List.Sorted (· < ·) ((runClusters sites theta labels).map Prod.fst) ∧
    ((runClusters sites theta labels).map Prod.fst) = clusterIds sites theta labels ∧
    (∀ g ∈ runClusters sites theta labels,
      g.2 = (labeledPoints sites theta labels).filter (fun p => p.2 = g.1)) := by
  have hids : ((runClusters sites theta labels).map Prod.fst) =
      clusterIds sites theta labels := by
    rw [runClusters, List.map_map]
    have hfun : List.map
        (Prod.fst ∘ fun c => (c, (labeledPoints sites theta labels).filter
          (fun p => p.2 = c))) (clusterIds sites theta labels) =
        List.map id (clusterIds sites theta labels) :=
      List.map_congr_left (fun c _ => rfl)
    rw [hfun, List.map_id]
  refine ⟨?_, hids, ?_⟩
  · rw [hids]
    have hs : List.Sorted (· ≤ ·) (clusterIds sites theta labels) :=
      List.sorted_insertionSort (· ≤ ·) _
    have hnd : (clusterIds sites theta labels).Nodup := clusterIds_nodup sites theta labels
    exact (hs.and hnd).imp (fun hab => lt_of_le_of_ne hab.1 hab.2)
  · intro g hg
    obtain ⟨c, _, rfl⟩ := List.mem_map.mp hg
    rfl

/-- Witness for C8 at the same concrete run: the first-emitted cluster id is
the smaller label 0 even though label 3 was encountered first. -/
theorem cluster_ids_sorted_and_membership_witness :
    List.Sorted (· < ·)
      ((runClusters [⟨0, 2⟩, ⟨1, 3⟩, ⟨2, 0⟩] 1 [3, 0]).map Prod.fst) ∧
    ((runClusters [⟨0, 2⟩, ⟨1, 3⟩, ⟨2, 0⟩] 1 [3, 0]).map Prod.fst) =
      clusterIds [⟨0, 2⟩, ⟨1, 3⟩, ⟨2, 0⟩] 1 [3, 0] :=
  ⟨(cluster_ids_sorted_and_membership [⟨0, 2⟩, ⟨1, 3⟩, ⟨2, 0⟩] 1 [3, 0]).1,
   (cluster_ids_sorted_and_membership [⟨0, 2⟩, ⟨1, 3⟩, ⟨2, 0⟩] 1 [3, 0]).2.1⟩

end AmazonSettlements
